import Mathlib

/-!
Shallow embedding of the interactive visualization core of the
Tangible-Tensor repository, together with proofs that settle the
spec's claims about it.

Conventions used throughout:
* JavaScript `number` arithmetic is embedded as exact arithmetic over `ℚ`
  (or `ℝ` where the source applies trigonometric functions).
* `Math.sqrt(e) < c` comparisons with `c ≥ 0` and `e ≥ 0` are embedded as
  `e < c^2` (squaring both sides of the source's comparison, which is an
  equivalence because both sides are nonnegative); likewise for `>`.
* Structures mirror the object literals of the source; every definition
  is annotated with the source file and symbol it embeds.
-/

namespace GradientDescent

/-- Point record of src/components/GradientDescent.tsx
(`interface Point { x; y; z }`). -/
structure Point where
  x : ℚ
  y : ℚ
  z : ℚ
  deriving DecidableEq, Repr

/-- One entry of the `FUNCTIONS` table of GradientDescent.tsx: a scalar
field `f` together with its two analytic partials `df_dx`, `df_dy`. -/
structure Field2 where
  f : ℚ → ℚ → ℚ
  df_dx : ℚ → ℚ → ℚ
  df_dy : ℚ → ℚ → ℚ

/-- The entry `FUNCTIONS[0]` (`id: 'bowl'`) of GradientDescent.tsx:
`f(x,y) = (x*x + y*y) / 4`, `df_dx = x / 2`, `df_dy = y / 2`. -/
def bowl : Field2 where
  f := fun x y => (x * x + y * y) / 4
  df_dx := fun x _ => x / 2
  df_dy := fun _ y => y / 2

/-- The algorithm state of GradientDescent.tsx: `position` (fields `x`,
`y`), `path` (the history trail), `iteration`, and the `isRunning` flag. -/
structure GDState where
  x : ℚ
  y : ℚ
  path : List Point
  iteration : ℕ
  running : Bool
  deriving DecidableEq, Repr

/-- The `step` callback of GradientDescent.tsx (lines 81-105).  It computes
the gradient at the current position, the candidate position
`next = prev - learningRate * grad`, and the Euclidean displacement `dist`;
if `dist < 0.001 || dist > 10` it sets `isRunning` to `false` and keeps the
position, otherwise it appends `(prev.x, f(prev.x,prev.y), prev.y)` to the
path, bumps the iteration count and moves to the candidate position.
The source compares `Math.sqrt(distSq)` with `0.001` and `10`; both sides
being nonnegative, this is embedded by comparing `distSq` with the squares
`(1/1000)^2` and `10^2`. -/
def step (F : Field2) (learningRate : ℚ) (s : GDState) : GDState :=
  let gradX := F.df_dx s.x s.y
  let gradY := F.df_dy s.x s.y
  let nextX := s.x - learningRate * gradX
  let nextY := s.y - learningRate * gradY
  let distSq := (nextX - s.x) ^ 2 + (nextY - s.y) ^ 2
  if distSq < (1 / 1000) ^ 2 ∨ distSq > 10 ^ 2 then
    { s with running := false }
  else
    { s with
      x := nextX
      y := nextY
      path := s.path ++ [⟨s.x, F.f s.x s.y, s.y⟩]
      iteration := s.iteration + 1 }

/-- One tick of the `setInterval` loop of GradientDescent.tsx (lines
108-116): `step` runs only while `isRunning` is set. -/
def tick (F : Field2) (learningRate : ℚ) (s : GDState) : GDState :=
  if s.running then step F learningRate s else s

/-- The run of end-to-end scenario 4: bowl function, start `(3, 3)`
(its `start` field), initial empty path, learning rate `0.1`, running. -/
def bowlInit : GDState :=
  { x := 3, y := 3, path := [], iteration := 0, running := true }

/-- State after `n` ticks of the scenario-4 run. -/
def bowlRun (n : ℕ) : GDState :=
  (tick bowl (1 / 10))^[n] bowlInit

/-- One pointer-move event while dragging the probe ball, as consumed by
the `BALL` branch of `handleMouseMove` in GradientDescent.tsx (lines
327-341): the raw screen delta `(dx, dy)`, the precomputed
`Math.cos(camera.y)` and `Math.sin(camera.y)` values, and the
`sensitivity = 1.0 / scale` factor. -/
structure DragEvent where
  dx : ℚ
  dy : ℚ
  cosY : ℚ
  sinY : ℚ
  sens : ℚ
  deriving DecidableEq, Repr

/-- The `BALL` branch of `handleMouseMove` (GradientDescent.tsx lines
327-341): map the screen delta into a world delta using the camera yaw and
clamp each coordinate with `Math.max(-4, Math.min(4, ·))`. -/
def handleMouseMoveBall (s : GDState) (e : DragEvent) : GDState :=
  let dX := (e.dx * e.cosY + e.dy * e.sinY) * e.sens
  let dY := (e.dy * e.cosY - e.dx * e.sinY) * e.sens
  { s with
    x := max (-4) (min 4 (s.x + dX))
    y := max (-4) (min 4 (s.y + dY)) }

/-- The ball-hit branch of `handleMouseDown` (GradientDescent.tsx lines
307-311), taken when the pointer lands within 15px of the projected ball:
`setIsRunning(false); setPath([]); setIteration(0)` (the position is not
touched). -/
def handleMouseDownBall (s : GDState) : GDState :=
  { s with running := false, path := [], iteration := 0 }

end GradientDescent

namespace IntegralVisualizer

/-- The midpoint of grid cell `(i, j)` in the `draw` loop of the
`IntegralVisualizer` component (src/components/ComingSoon.tsx lines
143-148): the loop variable starts at `-range` and advances by
`step = (range * 2) / resolution`, and the midpoint adds `step/2`. -/
def cellMid (range step : ℚ) (i : ℕ) : ℚ :=
  -range + i * step + step / 2

/-- The Riemann-sum accumulation of `IntegralVisualizer.draw`
(ComingSoon.tsx lines 127-152), embedded as the nested `for` loops over the
`resolution × resolution` grid with the accumulator `vol`: each cell whose
midpoint height `f(midX, midY)` satisfies `height <= 0` is skipped
(`continue`), every other cell adds `height * (step * step)`.  Over `ℚ`
the loop `for (x = -range; x < range; x += step)` executes exactly
`resolution` times, visiting `x = -range + i * step` for
`i = 0, …, resolution - 1`. -/
def draw (f : ℚ → ℚ → ℚ) (range : ℚ) (resolution : ℕ) : ℚ :=
  let step := (range * 2) / resolution
  (List.range resolution).foldl
    (fun vol i =>
      (List.range resolution).foldl
        (fun vol j =>
          let height := f (cellMid range step i) (cellMid range step j)
          if height ≤ 0 then vol else vol + height * (step * step))
        vol)
    0

/-- Restatement of the spec's description of the estimator (spec §4.5,
"Riemann-sum volume estimator"): the sum of `f(midpoint) · (Δx·Δy)` over
exactly those grid cells whose midpoint value is positive. -/
def specVolume (f : ℚ → ℚ → ℚ) (range : ℚ) (resolution : ℕ) : ℚ :=
  let step := (range * 2) / resolution
  ∑ p ∈ (Finset.range resolution ×ˢ Finset.range resolution).filter
      (fun p => 0 < f (cellMid range step p.1) (cellMid range step p.2)),
    f (cellMid range step p.1) (cellMid range step p.2) * (step * step)

end IntegralVisualizer

namespace MatrixMultiplicationLevel

/-- Matrix record of src/components/MatrixMultiplicationLevel.tsx
(`interface Matrix2x2 { a; b; c; d }`, row-major `[[a,b],[c,d]]`). -/
@[ext]
structure Matrix2x2 where
  a : ℚ
  b : ℚ
  c : ℚ
  d : ℚ
  deriving DecidableEq, Repr

/-- The `multiply` helper of MatrixMultiplicationLevel.tsx (lines 19-25):
`(A * B)` — apply `B` first, then `A`. -/
def multiply (m1 m2 : Matrix2x2) : Matrix2x2 where
  a := m1.a * m2.a + m1.b * m2.c
  b := m1.a * m2.b + m1.b * m2.d
  c := m1.c * m2.a + m1.d * m2.c
  d := m1.c * m2.b + m1.d * m2.d

/-- The `lerpMatrix` helper of MatrixMultiplicationLevel.tsx (lines 28-33):
component-wise `m1 + (m2 - m1) * t`. -/
def lerpMatrix (m1 m2 : Matrix2x2) (t : ℚ) : Matrix2x2 where
  a := m1.a + (m2.a - m1.a) * t
  b := m1.b + (m2.b - m1.b) * t
  c := m1.c + (m2.c - m1.c) * t
  d := m1.d + (m2.d - m1.d) * t

/-- The smoothstep easing `t * t * (3 - 2 * t)` applied to `progress`
(MatrixMultiplicationLevel.tsx line 101). -/
def smoothstep (t : ℚ) : ℚ :=
  t * t * (3 - 2 * t)

/-- The identity matrix `{ a: 1, b: 0, c: 0, d: 1 }` used as the initial
visual and accumulated matrix. -/
def idMatrix : Matrix2x2 :=
  ⟨1, 0, 0, 1⟩

/-- The animation state of MatrixMultiplicationLevel.tsx: `stepIndex`,
`progress` within the current step, `accumulatedMatrix` (the total before
the current step), `currentMatrix` (the visual matrix), `isAnimating`. -/
@[ext]
structure AnimState where
  stepIndex : ℕ
  progress : ℚ
  accumulated : Matrix2x2
  current : Matrix2x2
  animating : Bool
  deriving DecidableEq, Repr

/-- One tick of the animation of MatrixMultiplicationLevel.tsx: the
`requestAnimationFrame` body (lines 60-84) advances `progress` by `0.02`
and, at a step boundary, folds the finished step into the accumulated
matrix (`multiply(stepM, accumulated)`, left multiplication) or — after
the last step — writes the final product into `currentMatrix` and stops;
the companion effect (lines 93-107) then recomputes the visual matrix as
`lerpMatrix(accumulated, multiply(stepM, accumulated), smoothstep)` while
the animation is live. -/
def animTick (queue : List Matrix2x2) (s : AnimState) : AnimState :=
  if s.animating = false then s
  else
    let next := s.progress + 1 / 50
    if 1 ≤ next then
      if s.stepIndex + 1 < queue.length then
        let stepM := queue.getD s.stepIndex idMatrix
        let newAcc := multiply stepM s.accumulated
        let nextStepM := queue.getD (s.stepIndex + 1) idMatrix
        { stepIndex := s.stepIndex + 1
          progress := 0
          accumulated := newAcc
          current := lerpMatrix newAcc (multiply nextStepM newAcc) (smoothstep 0)
          animating := true }
      else
        let lastStepM := queue.getD s.stepIndex idMatrix
        { s with
          progress := 1
          current := multiply lastStepM s.accumulated
          animating := false }
    else
      let stepM := queue.getD s.stepIndex idMatrix
      { s with
        progress := next
        current := lerpMatrix s.accumulated (multiply stepM s.accumulated) (smoothstep next) }

/-- The state set up by `runSequence` (MatrixMultiplicationLevel.tsx lines
250-258): identity visual and accumulated matrices, step 0, progress 0,
animating. -/
def animInit : AnimState :=
  { stepIndex := 0, progress := 0, accumulated := idMatrix
    current := idMatrix, animating := true }

/-- State after `n` animation ticks on the given queue. -/
def animRun (queue : List Matrix2x2) (n : ℕ) : AnimState :=
  (animTick queue)^[n] animInit

/-- The accumulated total before step `i`: the fold
`A ↦ multiply(Mⱼ, A)` of the first `i` queued matrices over the identity. -/
def accBefore (queue : List Matrix2x2) (i : ℕ) : Matrix2x2 :=
  (queue.take i).foldl (fun acc m => multiply m acc) idMatrix

/-- The accumulated total after the whole queue. -/
def composeQueue (queue : List Matrix2x2) : Matrix2x2 :=
  queue.foldl (fun acc m => multiply m acc) idMatrix

/-- The left-to-right product `Mₖ · … · M₂ · M₁` of the queued matrices,
grouped as `((Mₖ · Mₖ₋₁) · …) · M₁`. -/
def productRTL (queue : List Matrix2x2) : Matrix2x2 :=
  queue.reverse.foldl multiply idMatrix

/-- The animation state inside step `i` after `j` of its 50 sub-ticks
(`0 ≤ j ≤ 49`): progress `j/50`, accumulated total `A`, and the visual
matrix eased from `A` toward `queue[i] · A` by smoothstep. -/
def duringState (queue : List Matrix2x2) (i j : ℕ) (A : Matrix2x2) :
    AnimState where
  stepIndex := i
  progress := (j : ℚ) / 50
  accumulated := A
  current :=
    lerpMatrix A (multiply (queue.getD i idMatrix) A)
      (smoothstep ((j : ℚ) / 50))
  animating := true

end MatrixMultiplicationLevel

namespace EigenvectorsLevel

/-- Vector record of src/components/EigenvectorsLevel.tsx
(`interface Vector2 { x; y }`). -/
structure Vector2 where
  x : ℚ
  y : ℚ
  deriving DecidableEq, Repr

/-- The alignment check of `EigenvectorsLevel.draw` (lines 181-185):
`isAligned` starts `false` and a `forEach` over the preset's `eigenLines`
sets it `true` whenever `|probeBase.x * line.y - probeBase.y * line.x| <
0.1`. -/
def isAligned (probeBase : Vector2) (eigenLines : List Vector2) : Bool :=
  eigenLines.foldl
    (fun acc line =>
      let cross := probeBase.x * line.y - probeBase.y * line.x
      if |cross| < 1 / 10 then true else acc)
    false

end EigenvectorsLevel

namespace VectorPlayground

/-- Vector record of src/components/VectorPlayground.tsx
(`interface Vector3 { x; y; z }`).  Components are embedded as `ℝ`
because the camera path applies `Math.cos`/`Math.sin`. -/
structure Vector3 where
  x : ℝ
  y : ℝ
  z : ℝ

/-- The `rotateX` helper of VectorPlayground.tsx (lines 17-21): rotation
about the horizontal axis by the pitch angle. -/
noncomputable def rotateX (v : Vector3) (angle : ℝ) : Vector3 where
  x := v.x
  y := v.y * Real.cos angle - v.z * Real.sin angle
  z := v.y * Real.sin angle + v.z * Real.cos angle

/-- The `rotateY` helper of VectorPlayground.tsx (lines 23-27): rotation
about the vertical axis by the yaw angle. -/
noncomputable def rotateY (v : Vector3) (angle : ℝ) : Vector3 where
  x := v.x * Real.cos angle + v.z * Real.sin angle
  y := v.y
  z := -v.x * Real.sin angle + v.z * Real.cos angle

/-- The screen point returned by `project`: `x`, `y` in pixels and the
camera-space `z` kept as the depth. -/
structure Screen where
  x : ℝ
  y : ℝ
  z : ℝ

/-- The `project` callback of VectorPlayground.tsx (lines 56-75).  In 3D
mode the world point is rotated by yaw (`rotateY`, camera `y`) and then by
pitch (`rotateX`, camera `x`); in 2D mode the point is taken as
`{x: v.x, y: v.y, z: 0}` with no rotation.  Either way the screen point is
`(width/2 + pan.x + p.x * scale, height/2 + pan.y - p.y * scale)` with
`p.z` as the depth. -/
noncomputable def project (is3D : Bool) (cameraX cameraY scale panX panY : ℝ)
    (width height : ℝ) (v : Vector3) : Screen :=
  let p := if is3D then rotateX (rotateY v cameraY) cameraX else ⟨v.x, v.y, 0⟩
  { x := width / 2 + panX + p.x * scale
    y := height / 2 + panY - p.y * scale
    z := p.z }

/-- Names the component being updated by one numeric text field. -/
inductive Axis where
  | x
  | y
  | z
  deriving DecidableEq, Repr

/-- Functional update `{...vec, [axis]: val}` of one component. -/
def setAxis (v : Vector3) (axis : Axis) (val : ℝ) : Vector3 :=
  match axis with
  | .x => { v with x := val }
  | .y => { v with y := val }
  | .z => { v with z := val }

/-- The `ColumnVector.handleChange` of VectorPlayground.tsx (line 344):
`onChange({...vec, [axis]: parseFloat(val)||0})`.  The result of
`parseFloat` is embedded as `Option ℝ`, `none` standing for `NaN`
(unparseable text); `NaN || 0` evaluates to `0` in JavaScript, so the
written component is `parsed.getD 0`.  The `handleChange` of the
`DotProductLevel` column vectors (GradientDescent.tsx line 710) and of
CrossProductLevel/ScalarMultiplication are textually identical. -/
def handleChange (vec : Vector3) (axis : Axis) (parsed : Option ℝ) : Vector3 :=
  setAxis vec axis (parsed.getD 0)

end VectorPlayground

namespace MatrixTransform

/-- Matrix record of src/components/MatrixTransform.tsx
(`interface Matrix2x2`, row-major `a b / c d`). -/
structure Matrix2x2 where
  a : ℚ
  b : ℚ
  c : ℚ
  d : ℚ
  deriving DecidableEq, Repr

/-- Names the coefficient being updated by one numeric text field. -/
inductive Key where
  | a
  | b
  | c
  | d
  deriving DecidableEq, Repr

/-- Functional update `{...prev, [key]: num}` of one coefficient. -/
def setKey (m : Matrix2x2) (key : Key) (val : ℚ) : Matrix2x2 :=
  match key with
  | .a => { m with a := val }
  | .b => { m with b := val }
  | .c => { m with c := val }
  | .d => { m with d := val }

/-- The `updateMatrix` handler of MatrixTransform.tsx (lines 37-42):
`const num = parseFloat(val); if (!isNaN(num)) setMatrix(prev => ({...prev,
[key]: num}))`.  The result of `parseFloat` is embedded as `Option ℚ`,
`none` standing for `NaN`; when the text is unparseable the previous
matrix is returned unchanged. -/
def updateMatrix (m : Matrix2x2) (key : Key) (parsed : Option ℚ) : Matrix2x2 :=
  match parsed with
  | none => m
  | some num => setKey m key num

end MatrixTransform

namespace MatrixTransformLevel

/-- Tag of a render command (`type` field of the items pushed onto
`renderList` in MatrixTransformLevel.tsx). -/
inductive ItemType where
  | LINE
  | ARROW
  | FACE
  deriving DecidableEq, Repr

/-- One entry of the `renderList` accumulated during a frame of
`MatrixTransformLevel.draw`: the depth key `z` and the paint closure,
which is embedded as an opaque identifier `id`. -/
structure RenderItem where
  type : ItemType
  z : ℚ
  id : ℕ
  deriving DecidableEq, Repr

/-- The depth key given to an interactive arrow by `addVector`
(MatrixTransformLevel.tsx: `z: avgZ - 100, // Bias to draw on top`). -/
def arrowZ (avgZ : ℚ) : ℚ :=
  avgZ - 100

/-- The depth key given to a grid line by `addLine`
(MatrixTransformLevel.tsx: `z: avgZ`). -/
def lineZ (avgZ : ℚ) : ℚ :=
  avgZ

/-- The depth key given to a unit-cube face (MatrixTransformLevel.tsx:
`z: avgZ + 50, // Bias slightly behind arrows`). -/
def faceZ (avgZ : ℚ) : ℚ :=
  avgZ + 50

/-- The order imposed by the JavaScript comparator `(a, b) => b.z - a.z`:
`a` precedes `b` when `b.z ≤ a.z` (descending depth key). -/
def renderLE (a b : RenderItem) : Prop :=
  b.z ≤ a.z

instance : DecidableRel renderLE :=
  fun a b => inferInstanceAs (Decidable (b.z ≤ a.z))

instance : IsTotal RenderItem renderLE :=
  ⟨fun a b => le_total b.z a.z⟩

instance : IsTrans RenderItem renderLE :=
  ⟨fun _ _ _ h1 h2 => le_trans h2 h1⟩

/-- The frame flush `renderList.sort((a, b) => b.z - a.z)`
(MatrixTransformLevel.tsx line 360): sort the accumulated commands in
descending order of depth key.  The JavaScript comparator `b.z - a.z`
orders by `≥` on `z`; it is embedded as an insertion sort with respect to
that total preorder. -/
def sortRender (l : List RenderItem) : List RenderItem :=
  List.insertionSort renderLE l

/-- One paint command as needed to describe the failure semantics of the
frame execution: the opaque callback is summarized by its identifier and
by whether invoking it throws. -/
structure PaintCmd where
  id : ℕ
  throws : Bool
  deriving DecidableEq, Repr

/-- The frame execution `renderList.forEach(item => item.draw())`
(MatrixTransformLevel.tsx line 361; `prisms.forEach(p => p.draw())` in
ComingSoon.tsx line 228 is identical): `forEach` invokes the callbacks in
order, and an exception thrown by a callback propagates out of `forEach`,
aborting the iteration — there is no `try`/`catch` around the calls.  The
result lists the identifiers of the callbacks that were invoked. -/
def runRenderList : List PaintCmd → List ℕ
  | [] => []
  | c :: rest => if c.throws then [c.id] else c.id :: runRenderList rest

end MatrixTransformLevel

section Helpers

open GradientDescent IntegralVisualizer EigenvectorsLevel MatrixTransformLevel

/-- Folding `acc + g i` over `List.range n` is `init` plus the sum of `g`. -/
theorem foldl_range_add (n : ℕ) (g : ℕ → ℚ) (init : ℚ) :
    (List.range n).foldl (fun acc i => acc + g i) init =
      init + ∑ i ∈ Finset.range n, g i := by
  induction n generalizing init with
  | zero => simp
  | succ n ih =>
      rw [List.range_succ, List.foldl_append, ih, Finset.sum_range_succ]
      simp [add_assoc]

/-- Unfolding of the mutable-accumulator `forEach` of the alignment check. -/
theorem isAligned_foldl (probe : EigenvectorsLevel.Vector2)
    (lines : List EigenvectorsLevel.Vector2) (acc : Bool) :
    lines.foldl
        (fun acc line =>
          if |probe.x * line.y - probe.y * line.x| < 1 / 10 then true else acc)
        acc = true ↔
      acc = true ∨ ∃ l ∈ lines, |probe.x * l.y - probe.y * l.x| < 1 / 10 := by
  induction lines generalizing acc with
  | nil => simp
  | cons l ls ih =>
      rw [List.foldl_cons, ih]
      by_cases h : |probe.x * l.y - probe.y * l.x| < 1 / 10 <;>
        simp [h] <;> tauto

/-- A single ball-drag move always lands inside the square `[-4, 4]²`. -/
theorem handleMouseMoveBall_mem (s : GDState) (e : DragEvent) :
    -4 ≤ (handleMouseMoveBall s e).x ∧ (handleMouseMoveBall s e).x ≤ 4 ∧
    -4 ≤ (handleMouseMoveBall s e).y ∧ (handleMouseMoveBall s e).y ≤ 4 := by
  refine ⟨le_max_left _ _, max_le (by norm_num) (min_le_left _ _),
    le_max_left _ _, max_le (by norm_num) (min_le_left _ _)⟩

/-- After any nonempty sequence of ball-drag moves the position is inside
the square `[-4, 4]²`. -/
theorem foldl_handleMouseMoveBall_mem (es : List DragEvent) (s : GDState)
    (h : es ≠ []) :
    -4 ≤ (es.foldl handleMouseMoveBall s).x ∧
    (es.foldl handleMouseMoveBall s).x ≤ 4 ∧
    -4 ≤ (es.foldl handleMouseMoveBall s).y ∧
    (es.foldl handleMouseMoveBall s).y ≤ 4 := by
  induction es generalizing s with
  | nil => exact absurd rfl h
  | cons e rest ih =>
      rw [List.foldl_cons]
      rcases rest with _ | ⟨e2, rest⟩
      · simpa using handleMouseMoveBall_mem s e
      · exact ih _ (by simp)

end Helpers

/-- C1: for every scalar field with analytic partials, `step` computes the
candidate position `x' = x − α·∂f/∂x(x,y)`, `y' = y − α·∂f/∂y(x,y)`; if
the squared Euclidean displacement between the old and candidate position
is below `0.001²` or exceeds `10²` (the source compares the square root
against `0.001` and `10`), `running` is set to `false` and nothing else
changes; otherwise the pre-step point `(x, f(x,y), y)` is appended to the
history trail, the iteration count is bumped, and the position becomes
`(x', y')`. -/
theorem claim_C1 (F : GradientDescent.Field2) (α : ℚ)
    (s : GradientDescent.GDState) :
    ((s.x - α * F.df_dx s.x s.y - s.x) ^ 2 +
            (s.y - α * F.df_dy s.x s.y - s.y) ^ 2 < (1 / 1000) ^ 2 ∨
          (s.x - α * F.df_dx s.x s.y - s.x) ^ 2 +
            (s.y - α * F.df_dy s.x s.y - s.y) ^ 2 > 10 ^ 2 →
        GradientDescent.step F α s = { s with running := false }) ∧
    (¬((s.x - α * F.df_dx s.x s.y - s.x) ^ 2 +
            (s.y - α * F.df_dy s.x s.y - s.y) ^ 2 < (1 / 1000) ^ 2 ∨
          (s.x - α * F.df_dx s.x s.y - s.x) ^ 2 +
            (s.y - α * F.df_dy s.x s.y - s.y) ^ 2 > 10 ^ 2) →
        GradientDescent.step F α s =
          { s with
            x := s.x - α * F.df_dx s.x s.y
            y := s.y - α * F.df_dy s.x s.y
            path := s.path ++ [⟨s.x, F.f s.x s.y, s.y⟩]
            iteration := s.iteration + 1 }) := by
  constructor <;> intro h <;> simp only [GradientDescent.step]
  · rw [if_pos h]
  · rw [if_neg h]

/-- Witness for C1: one accepted step of the bowl run from `(3, 3)` with
`α = 0.1` moves to `(57/20, 57/20)` and appends `(3, 9/2, 3)`. -/
theorem claim_C1_witness :
    GradientDescent.step GradientDescent.bowl (1 / 10) GradientDescent.bowlInit =
      { x := 57 / 20, y := 57 / 20, path := [⟨3, 9 / 2, 3⟩], iteration := 1
        running := true } := by
  have h :=
    (claim_C1 GradientDescent.bowl (1 / 10) GradientDescent.bowlInit).2
      (by norm_num [GradientDescent.bowl, GradientDescent.bowlInit])
  rw [h]
  norm_num [GradientDescent.bowl, GradientDescent.bowlInit,
    GradientDescent.GDState.mk.injEq, GradientDescent.Point.mk.injEq]

/-- C3: for every resolution `n ≥ 1` and every scalar field `f`, the
Riemann-sum loop of `IntegralVisualizer.draw` returns the sum of
`f(midpoint) · (Δx·Δy)` over exactly those cells of the `n×n` grid on
`[−r, r]²` whose midpoint value is positive; cells with zero or negative
midpoint value contribute nothing. -/
theorem claim_C3 (f : ℚ → ℚ → ℚ) (r : ℚ) (n : ℕ) (h : 1 ≤ n) :
    IntegralVisualizer.draw f r n = IntegralVisualizer.specVolume f r n := by
  clear h
  unfold IntegralVisualizer.draw IntegralVisualizer.specVolume
  set step := (r * 2) / (n : ℚ) with hstep
  have hbody : ∀ (A hgt c : ℚ),
      (if hgt ≤ 0 then A else A + hgt * c) =
        A + (if 0 < hgt then hgt * c else 0) := by
    intro A hgt c
    by_cases h1 : hgt ≤ 0
    · rw [if_pos h1, if_neg (by linarith), add_zero]
    · rw [if_neg h1, if_pos (by linarith)]
  have hinner : ∀ (i : ℕ) (A : ℚ),
      (List.range n).foldl
          (fun vol j =>
            let height := f (IntegralVisualizer.cellMid r step i)
              (IntegralVisualizer.cellMid r step j)
            if height ≤ 0 then vol else vol + height * (step * step)) A =
        A + ∑ j ∈ Finset.range n,
          (if 0 < f (IntegralVisualizer.cellMid r step i)
              (IntegralVisualizer.cellMid r step j) then
            f (IntegralVisualizer.cellMid r step i)
              (IntegralVisualizer.cellMid r step j) * (step * step)
          else 0) := by
    intro i A
    rw [show (fun vol j =>
        let height := f (IntegralVisualizer.cellMid r step i)
          (IntegralVisualizer.cellMid r step j)
        if height ≤ 0 then vol else vol + height * (step * step)) =
        fun vol j => vol + (if 0 < f (IntegralVisualizer.cellMid r step i)
            (IntegralVisualizer.cellMid r step j) then
          f (IntegralVisualizer.cellMid r step i)
            (IntegralVisualizer.cellMid r step j) * (step * step)
        else 0) from funext fun vol => funext fun j => hbody _ _ _]
    exact foldl_range_add n _ A
  calc (List.range n).foldl _ 0
      = 0 + ∑ i ∈ Finset.range n, ∑ j ∈ Finset.range n,
          (if 0 < f (IntegralVisualizer.cellMid r step i)
              (IntegralVisualizer.cellMid r step j) then
            f (IntegralVisualizer.cellMid r step i)
              (IntegralVisualizer.cellMid r step j) * (step * step)
          else 0) := by
        rw [show (fun vol i =>
            (List.range n).foldl
              (fun vol j =>
                let height := f (IntegralVisualizer.cellMid r step i)
                  (IntegralVisualizer.cellMid r step j)
                if height ≤ 0 then vol else vol + height * (step * step)) vol) =
            fun (vol : ℚ) i => vol + ∑ j ∈ Finset.range n,
              (if 0 < f (IntegralVisualizer.cellMid r step i)
                  (IntegralVisualizer.cellMid r step j) then
                f (IntegralVisualizer.cellMid r step i)
                  (IntegralVisualizer.cellMid r step j) * (step * step)
              else 0) from funext fun vol => funext fun i => hinner i vol]
        exact foldl_range_add n _ 0
    _ = IntegralVisualizer.specVolume f r n := by
        rw [zero_add]
        unfold IntegralVisualizer.specVolume
        rw [Finset.sum_filter, Finset.sum_product]

/-- Witness for C3: on the field `f(x,y) = x` with range 1 at resolution 2
the loop and the filtered midpoint sum agree, and only the two cells with
positive midpoint (`x`-midpoint `1/2`) contribute, giving volume 1. -/
theorem claim_C3_witness :
    IntegralVisualizer.draw (fun x _ => x) 1 2 =
        IntegralVisualizer.specVolume (fun x _ => x) 1 2 ∧
      IntegralVisualizer.draw (fun x _ => x) 1 2 = 1 :=
  ⟨claim_C3 (fun x _ => x) 1 2 (by norm_num),
    by norm_num [IntegralVisualizer.draw, IntegralVisualizer.cellMid,
      List.range_succ]⟩

/-- C5: the eigen-alignment test classifies the probe as aligned exactly
when some candidate line satisfies
`|probe.x·line.y − probe.y·line.x| < 0.1`. -/
theorem claim_C5 (probe : EigenvectorsLevel.Vector2)
    (lines : List EigenvectorsLevel.Vector2) :
    EigenvectorsLevel.isAligned probe lines = true ↔
      ∃ line ∈ lines, |probe.x * line.y - probe.y * line.x| < 1 / 10 := by
  rw [EigenvectorsLevel.isAligned, isAligned_foldl]
  simp

/-- C9 counterexample: an unparseable entry in the `x` field of the vector
`(4, 1, 0)` (so `parseFloat` yields `NaN`, embedded as `none`) makes
`ColumnVector.handleChange` overwrite the model with `0`: the last
known-good value `4` is not retained, refuting the claim at this input. -/
theorem claim_C9_counterexample :
    VectorPlayground.handleChange ⟨4, 1, 0⟩ VectorPlayground.Axis.x none =
        ⟨0, 1, 0⟩ ∧
      (VectorPlayground.handleChange ⟨4, 1, 0⟩ VectorPlayground.Axis.x none).x
        ≠ 4 := by
  constructor
  · rfl
  · show (0 : ℝ) ≠ 4
    norm_num

/-- C9 (amended): the matrix coefficient fields of `MatrixTransform`
retain the last known-good value on unparseable input (`updateMatrix`
checks `isNaN` and skips the write), but the vector-component fields
(`ColumnVector.handleChange` in VectorPlayground, DotProductLevel and
their clones) coerce an unparseable entry to `0` via `parseFloat(val)||0`
and write it into the model. -/
theorem claim_C9 (m : MatrixTransform.Matrix2x2) (key : MatrixTransform.Key)
    (v : VectorPlayground.Vector3) (axis : VectorPlayground.Axis) :
    MatrixTransform.updateMatrix m key none = m ∧
      VectorPlayground.handleChange v axis none =
        VectorPlayground.setAxis v axis 0 := by
  exact ⟨rfl, rfl⟩

/-- C10: every ball-drag pointer-move clamps both coordinates to
`[−4, 4]`, so any nonempty sequence of drag events leaves the probe inside
the square `[−4, 4]²`; and the ball branch of `handleMouseDown` stops the
running algorithm, clears the step history and the iteration count while
keeping the position. -/
theorem claim_C10 (s : GradientDescent.GDState)
    (es : List GradientDescent.DragEvent) (h : es ≠ []) :
    (-4 ≤ (es.foldl GradientDescent.handleMouseMoveBall s).x ∧
      (es.foldl GradientDescent.handleMouseMoveBall s).x ≤ 4 ∧
      -4 ≤ (es.foldl GradientDescent.handleMouseMoveBall s).y ∧
      (es.foldl GradientDescent.handleMouseMoveBall s).y ≤ 4) ∧
    (GradientDescent.handleMouseDownBall s).running = false ∧
    (GradientDescent.handleMouseDownBall s).path = [] ∧
    (GradientDescent.handleMouseDownBall s).iteration = 0 ∧
    (GradientDescent.handleMouseDownBall s).x = s.x ∧
    (GradientDescent.handleMouseDownBall s).y = s.y :=
  ⟨foldl_handleMouseMoveBall_mem es s h, rfl, rfl, rfl, rfl, rfl⟩

/-- Witness for C10: a single drag event with a large screen delta from
the start state `(3, 3)` keeps the probe inside the square. -/
theorem claim_C10_witness :
    (-4 ≤ (([⟨100, 0, 1, 0, 1 / 40⟩] : List GradientDescent.DragEvent).foldl
        GradientDescent.handleMouseMoveBall GradientDescent.bowlInit).x ∧
      (([⟨100, 0, 1, 0, 1 / 40⟩] : List GradientDescent.DragEvent).foldl
        GradientDescent.handleMouseMoveBall GradientDescent.bowlInit).x ≤ 4 ∧
      -4 ≤ (([⟨100, 0, 1, 0, 1 / 40⟩] : List GradientDescent.DragEvent).foldl
        GradientDescent.handleMouseMoveBall GradientDescent.bowlInit).y ∧
      (([⟨100, 0, 1, 0, 1 / 40⟩] : List GradientDescent.DragEvent).foldl
        GradientDescent.handleMouseMoveBall GradientDescent.bowlInit).y ≤ 4) ∧
    (GradientDescent.handleMouseDownBall GradientDescent.bowlInit).running =
      false ∧
    (GradientDescent.handleMouseDownBall GradientDescent.bowlInit).path = [] ∧
    (GradientDescent.handleMouseDownBall GradientDescent.bowlInit).iteration
      = 0 ∧
    (GradientDescent.handleMouseDownBall GradientDescent.bowlInit).x =
      GradientDescent.bowlInit.x ∧
    (GradientDescent.handleMouseDownBall GradientDescent.bowlInit).y =
      GradientDescent.bowlInit.y :=
  claim_C10 GradientDescent.bowlInit [⟨100, 0, 1, 0, 1 / 40⟩]
    (List.cons_ne_nil _ _)

section BowlRun

open GradientDescent

/-- A tick from a halted state leaves the state unchanged (the interval
only fires while `isRunning`). -/
theorem bowlRun_not_running_succ (n : ℕ) (h : (bowlRun n).running = false) :
    bowlRun (n + 1) = bowlRun n := by
  show (tick bowl (1 / 10))^[n + 1] bowlInit = bowlRun n
  rw [Function.iterate_succ_apply']
  show tick bowl (1 / 10) (bowlRun n) = bowlRun n
  rw [tick, h]
  simp

/-- Once halted, the run never restarts; contrapositive form. -/
theorem bowlRun_running_mono (n : ℕ) (h : (bowlRun (n + 1)).running = true) :
    (bowlRun n).running = true := by
  cases hr : (bowlRun n).running
  · rw [bowlRun_not_running_succ n hr, hr] at h
    exact absurd h (by simp)
  · rfl

/-- Unfolding one tick of a still-running bowl run. -/
theorem bowlRun_succ_of_running (n : ℕ) (h : (bowlRun n).running = true) :
    bowlRun (n + 1) = step bowl (1 / 10) (bowlRun n) := by
  show (tick bowl (1 / 10))^[n + 1] bowlInit = _
  rw [Function.iterate_succ_apply']
  show tick bowl (1 / 10) (bowlRun n) = _
  rw [tick, h]
  simp

/-- While the scenario-4 run is still running after `n` ticks, its
position is `(3 · (19/20)ⁿ, 3 · (19/20)ⁿ)`: every accepted step scales
the diagonal start `(3, 3)` by `1 − α/2 = 19/20`. -/
theorem bowlRun_pos (n : ℕ) (h : (bowlRun n).running = true) :
    (bowlRun n).x = 3 * (19 / 20) ^ n ∧ (bowlRun n).y = 3 * (19 / 20) ^ n := by
  induction n with
  | zero =>
      constructor <;> simp [bowlRun, bowlInit]
  | succ n ih =>
      have hn : (bowlRun n).running = true := bowlRun_running_mono n h
      obtain ⟨hx, hy⟩ := ih hn
      have hstep := bowlRun_succ_of_running n hn
      rw [hstep] at h ⊢
      simp only [step] at h ⊢
      split_ifs at h ⊢ with hcond
      constructor <;> simp [bowl, hx, hy] <;> ring_nf

/-- When the scenario-4 run halts, it does so because the squared
displacement fell below `0.001²`; the divergence branch (`> 10`) is
unreachable because the displacement is at most `√(9/200)` on this run. -/
theorem bowlRun_halt_converged (n : ℕ) (h1 : (bowlRun n).running = true)
    (h2 : (bowlRun (n + 1)).running = false) :
    ((bowlRun n).x - 1 / 10 * bowl.df_dx (bowlRun n).x (bowlRun n).y -
          (bowlRun n).x) ^ 2 +
      ((bowlRun n).y - 1 / 10 * bowl.df_dy (bowlRun n).x (bowlRun n).y -
          (bowlRun n).y) ^ 2 < (1 / 1000) ^ 2 := by
  obtain ⟨hx, hy⟩ := bowlRun_pos n h1
  have hstep := bowlRun_succ_of_running n h1
  rw [hstep] at h2
  simp only [step] at h2
  split_ifs at h2 with hcond
  · rcases hcond with hc | hc
    · exact hc
    · exfalso
      have ht0 : (0 : ℚ) < (19 / 20) ^ n := pow_pos (by norm_num) n
      have ht1 : ((19 : ℚ) / 20) ^ n ≤ 1 :=
        pow_le_one₀ (by norm_num) (by norm_num)
      rw [hx, hy] at hc
      simp only [bowl] at hc
      nlinarith [sq_nonneg (((19 : ℚ) / 20) ^ n)]
  · rw [h1] at h2
    exact absurd h2 (by simp)

/-- Every still-accepted step of the scenario-4 run strictly decreases
the value of the bowl function at the current position. -/
theorem bowlRun_decrease (n : ℕ) (h : (bowlRun (n + 1)).running = true) :
    bowl.f (bowlRun (n + 1)).x (bowlRun (n + 1)).y <
      bowl.f (bowlRun n).x (bowlRun n).y := by
  have hn : (bowlRun n).running = true := bowlRun_running_mono n h
  obtain ⟨hx, hy⟩ := bowlRun_pos n hn
  obtain ⟨hx1, hy1⟩ := bowlRun_pos (n + 1) h
  have ht0 : (0 : ℚ) < (19 / 20) ^ n := pow_pos (by norm_num) n
  rw [hx, hy, hx1, hy1]
  simp only [bowl, pow_succ]
  nlinarith [ht0]

/-- The scenario-4 run halts: `(19/20)ⁿ` eventually makes the squared
displacement fall below the convergence threshold. -/
theorem bowlRun_halts : ∃ n, (bowlRun n).running = false := by
  obtain ⟨N, hN⟩ :=
    exists_pow_lt_of_lt_one (x := (1 : ℚ) / 1000) (y := 19 / 20)
      (by norm_num) (by norm_num)
  cases hr : (bowlRun (N + 1)).running
  · exact ⟨N + 1, hr⟩
  · exfalso
    have hNr : (bowlRun N).running = true := bowlRun_running_mono N hr
    obtain ⟨hx, hy⟩ := bowlRun_pos N hNr
    have hstep := bowlRun_succ_of_running N hNr
    have ht0 : (0 : ℚ) < (19 / 20) ^ N := pow_pos (by norm_num) N
    have hcond :
        ((bowlRun N).x - 1 / 10 * bowl.df_dx (bowlRun N).x (bowlRun N).y -
              (bowlRun N).x) ^ 2 +
            ((bowlRun N).y - 1 / 10 * bowl.df_dy (bowlRun N).x (bowlRun N).y -
              (bowlRun N).y) ^ 2 < (1 / 1000) ^ 2 := by
      rw [hx, hy]
      simp only [bowl]
      nlinarith [hN, ht0]
    have : (bowlRun (N + 1)).running = false := by
      rw [hstep]
      simp only [step]
      rw [if_pos (Or.inl hcond)]
    rw [this] at hr
    exact absurd hr (by simp)

end BowlRun

/-- C2: on the bowl function `f(x,y) = (x²+y²)/4` started at `(3,3)` with
learning rate `0.1`, every accepted gradient-descent step strictly
decreases the value of `f` at the current position; the iteration halts
(`running` set to `false`), and when it halts it is exactly because the
squared step displacement fell below `0.001²` (never the divergence
branch). -/
theorem claim_C2 :
    (∀ n : ℕ, (GradientDescent.bowlRun (n + 1)).running = true →
        GradientDescent.bowl.f (GradientDescent.bowlRun (n + 1)).x
            (GradientDescent.bowlRun (n + 1)).y <
          GradientDescent.bowl.f (GradientDescent.bowlRun n).x
            (GradientDescent.bowlRun n).y) ∧
    (∀ n : ℕ, (GradientDescent.bowlRun n).running = true →
        (GradientDescent.bowlRun (n + 1)).running = false →
        ((GradientDescent.bowlRun n).x -
              1 / 10 * GradientDescent.bowl.df_dx (GradientDescent.bowlRun n).x
                (GradientDescent.bowlRun n).y -
              (GradientDescent.bowlRun n).x) ^ 2 +
          ((GradientDescent.bowlRun n).y -
              1 / 10 * GradientDescent.bowl.df_dy (GradientDescent.bowlRun n).x
                (GradientDescent.bowlRun n).y -
              (GradientDescent.bowlRun n).y) ^ 2 < (1 / 1000) ^ 2) ∧
    (∃ n, (GradientDescent.bowlRun n).running = false) :=
  ⟨bowlRun_decrease, bowlRun_halt_converged, bowlRun_halts⟩

/-- Witness for C2: the first step of the scenario-4 run is accepted and
strictly decreases the bowl value. -/
theorem claim_C2_witness :
    GradientDescent.bowl.f (GradientDescent.bowlRun 1).x
        (GradientDescent.bowlRun 1).y <
      GradientDescent.bowl.f (GradientDescent.bowlRun 0).x
        (GradientDescent.bowlRun 0).y :=
  claim_C2.1 0 (by
    have h : GradientDescent.bowlRun 1 =
        GradientDescent.step GradientDescent.bowl (1 / 10)
          GradientDescent.bowlInit :=
      bowlRun_succ_of_running 0 rfl
    rw [h]
    simp only [GradientDescent.step]
    rw [if_neg (by norm_num [GradientDescent.bowl, GradientDescent.bowlInit])]
    rfl)

section AnimRun

open MatrixMultiplicationLevel

/-- Easing by smoothstep at progress 0 leaves the start matrix. -/
theorem lerpMatrix_smoothstep_zero (m1 m2 : Matrix2x2) :
    lerpMatrix m1 m2 (smoothstep 0) = m1 := by
  ext <;> simp [lerpMatrix, smoothstep]

/-- The `runSequence` state is the step-0, sub-tick-0 state over the
identity total. -/
theorem animInit_eq_duringState (q : List Matrix2x2) :
    animInit = duringState q 0 0 idMatrix := by
  ext <;> simp [animInit, duringState, lerpMatrix, smoothstep]

/-- One tick strictly inside a step advances the progress by `1/50` and
re-eases the visual matrix. -/
theorem animTick_during (q : List Matrix2x2) (i j : ℕ) (A : Matrix2x2)
    (hj : j + 1 ≤ 49) :
    animTick q (duringState q i j A) = duringState q i (j + 1) A := by
  have hj48 : (j : ℚ) ≤ 48 := by exact_mod_cast Nat.lt_succ_iff.mp hj
  have hlt : ¬(1 ≤ (j : ℚ) / 50 + 1 / 50) := by
    rw [not_le]
    linarith
  have hprog : (j : ℚ) / 50 + 1 / 50 = ((j + 1 : ℕ) : ℚ) / 50 := by
    push_cast
    ring
  simp only [animTick, duringState]
  rw [if_neg (by simp), if_neg hlt, hprog]

/-- Iterating the in-step ticks: after `j ≤ 49` sub-ticks from the start
of step `i` the state is `duringState q i j A`. -/
theorem animTick_iterate_during (q : List Matrix2x2) (i : ℕ) (A : Matrix2x2)
    (j : ℕ) (hj : j ≤ 49) :
    (animTick q)^[j] (duringState q i 0 A) = duringState q i j A := by
  induction j with
  | zero => rfl
  | succ j ih =>
      rw [Function.iterate_succ_apply', ih (Nat.le_of_succ_le hj)]
      exact animTick_during q i j A hj

/-- The 50th sub-tick of a non-final step folds the step matrix into the
accumulated total by left multiplication and starts the next step. -/
theorem animTick_boundary (q : List Matrix2x2) (i : ℕ) (A : Matrix2x2)
    (hi : i + 1 < q.length) :
    animTick q (duringState q i 49 A) =
      duringState q (i + 1) 0 (multiply (q.getD i idMatrix) A) := by
  have h1 : (1 : ℚ) ≤ ((49 : ℕ) : ℚ) / 50 + 1 / 50 := by norm_num
  simp only [animTick, duringState]
  rw [if_neg (by simp), if_pos h1, if_pos hi]
  ext <;> simp

/-- The 50th sub-tick of the final step writes the product of the last
step matrix and the accumulated total into the visual matrix and stops. -/
theorem animTick_final (q : List Matrix2x2) (i : ℕ) (A : Matrix2x2)
    (hi : ¬(i + 1 < q.length)) :
    animTick q (duringState q i 49 A) =
      ⟨i, 1, A, multiply (q.getD i idMatrix) A, false⟩ := by
  have h1 : (1 : ℚ) ≤ ((49 : ℕ) : ℚ) / 50 + 1 / 50 := by norm_num
  simp only [animTick, duringState]
  rw [if_neg (by simp), if_pos h1, if_neg hi]

/-- Fifty sub-ticks carry the start of a non-final step to the start of
the next one, with the step matrix folded into the total. -/
theorem animTick_step50 (q : List Matrix2x2) (i : ℕ) (A : Matrix2x2)
    (hi : i + 1 < q.length) :
    (animTick q)^[50] (duringState q i 0 A) =
      duringState q (i + 1) 0 (multiply (q.getD i idMatrix) A) := by
  rw [show (50 : ℕ) = 49 + 1 from rfl, Function.iterate_succ_apply',
    animTick_iterate_during q i A 49 le_rfl]
  exact animTick_boundary q i A hi

/-- The total before step 0 is the identity. -/
theorem accBefore_zero (q : List Matrix2x2) : accBefore q 0 = idMatrix :=
  rfl

/-- The total before step `i+1` folds `queue[i]` into the total before
step `i` by left multiplication. -/
theorem accBefore_succ (q : List Matrix2x2) (i : ℕ) (hi : i < q.length) :
    accBefore q (i + 1) = multiply (q.getD i idMatrix) (accBefore q i) := by
  unfold accBefore
  rw [List.take_succ, List.getElem?_eq_getElem hi, Option.toList_some,
    List.foldl_append]
  simp [List.getD_eq_getElem?_getD, List.getElem?_eq_getElem hi]

/-- The run reaches the start of step `i` after `50·i` ticks, with the
accumulated total `accBefore q i`. -/
theorem animRun_start_of_step (q : List Matrix2x2) (i : ℕ)
    (hi : i < q.length) :
    animRun q (50 * i) = duringState q i 0 (accBefore q i) := by
  induction i with
  | zero => exact animInit_eq_duringState q
  | succ i ih =>
      have hi' : i < q.length := Nat.lt_of_succ_lt hi
      rw [animRun, show 50 * (i + 1) = 50 + 50 * i from by ring,
        Function.iterate_add_apply, ← animRun, ih hi',
        animTick_step50 q i _ hi, accBefore_succ q i hi']

/-- Inside step `i`, after `j ≤ 49` further sub-ticks the state is the
eased mid-step state. -/
theorem animRun_mid (q : List Matrix2x2) (i j : ℕ) (hi : i < q.length)
    (hj : j ≤ 49) :
    animRun q (50 * i + j) = duringState q i j (accBefore q i) := by
  rw [animRun, add_comm (50 * i) j, Function.iterate_add_apply, ← animRun,
    animRun_start_of_step q i hi, animTick_iterate_during q i _ j hj]

/-- Right identity for the source's matrix product. -/
theorem multiply_idMatrix_right (m : Matrix2x2) : multiply m idMatrix = m := by
  ext <;> simp [multiply, idMatrix]

/-- Left identity for the source's matrix product. -/
theorem multiply_idMatrix_left (m : Matrix2x2) : multiply idMatrix m = m := by
  ext <;> simp [multiply, idMatrix]

/-- Associativity of the source's matrix product. -/
theorem multiply_assoc (a b c : Matrix2x2) :
    multiply (multiply a b) c = multiply a (multiply b c) := by
  ext <;> simp [multiply] <;> ring

/-- Starting the accumulation fold at `z` post-multiplies the fold over
the identity by `z`. -/
theorem foldl_multiply_start (q : List Matrix2x2) (z : Matrix2x2) :
    q.foldl (fun acc m => multiply m acc) z =
      multiply (q.foldl (fun acc m => multiply m acc) idMatrix) z := by
  induction q generalizing z with
  | nil => exact (multiply_idMatrix_left z).symm
  | cons m rest ih =>
      simp only [List.foldl_cons]
      rw [ih (multiply m z), ih (multiply m idMatrix), multiply_idMatrix_right,
        multiply_assoc]

/-- The accumulated total of the whole queue is the left-to-right product
`Mₖ · … · M₂ · M₁`. -/
theorem composeQueue_eq_productRTL (q : List Matrix2x2) :
    composeQueue q = productRTL q := by
  induction q with
  | nil => rfl
  | cons m rest ih =>
      show (m :: rest).foldl (fun acc M => multiply M acc) idMatrix = _
      rw [List.foldl_cons, foldl_multiply_start rest (multiply m idMatrix),
        multiply_idMatrix_right]
      show multiply (composeQueue rest) m = productRTL (m :: rest)
      rw [ih]
      unfold productRTL
      rw [List.reverse_cons, List.foldl_append]
      rfl

/-- The run halts after `50·k` ticks (`k` the queue length) with the
composed product as the visual matrix. -/
theorem animRun_final (q : List Matrix2x2) (hq : q ≠ []) :
    animRun q (50 * q.length) =
      ⟨q.length - 1, 1, accBefore q (q.length - 1), composeQueue q, false⟩ := by
  obtain ⟨k, hlen⟩ : ∃ k, q.length = k + 1 :=
    ⟨q.length - 1, (Nat.succ_pred_eq_of_pos (List.length_pos.mpr hq)).symm⟩
  have hk : k < q.length := by omega
  have hcomp : composeQueue q = multiply (q.getD k idMatrix) (accBefore q k) := by
    have h1 : composeQueue q = accBefore q (k + 1) := by
      unfold composeQueue accBefore
      rw [← hlen, List.take_length]
    rw [h1, accBefore_succ q k hk]
  rw [hlen]
  simp only [Nat.add_sub_cancel]
  rw [animRun, show 50 * (k + 1) = 49 + 50 * k + 1 from by ring,
    Function.iterate_succ_apply', Function.iterate_add_apply, ← animRun,
    animRun_start_of_step q k hk,
    animTick_iterate_during q k _ 49 le_rfl,
    animTick_final q k _ (by omega), hcomp]

end AnimRun

/-- C4: for every queue of step matrices run by the composition animator,
within step `i` (sub-ticks `1 ≤ j ≤ 49`) the visual matrix is the
component-wise interpolation from the accumulated total `A` to
`queue[i]·A` with smoothstep easing; at each step boundary the
accumulated total is replaced by `queue[i]·A` (left multiplication); and
when the last step completes the animation stops with the displayed
matrix equal to the left-to-right product `Mₖ·…·M₂·M₁` of the queue. -/
theorem claim_C4 (q : List MatrixMultiplicationLevel.Matrix2x2)
    (hq : q ≠ []) :
    (∀ i j : ℕ, i < q.length → 1 ≤ j → j ≤ 49 →
        (MatrixMultiplicationLevel.animRun q (50 * i + j)).current =
          MatrixMultiplicationLevel.lerpMatrix
            (MatrixMultiplicationLevel.accBefore q i)
            (MatrixMultiplicationLevel.multiply
              (q.getD i MatrixMultiplicationLevel.idMatrix)
              (MatrixMultiplicationLevel.accBefore q i))
            (MatrixMultiplicationLevel.smoothstep ((j : ℚ) / 50))) ∧
    (∀ i : ℕ, i + 1 < q.length →
        (MatrixMultiplicationLevel.animRun q (50 * (i + 1))).accumulated =
          MatrixMultiplicationLevel.multiply
            (q.getD i MatrixMultiplicationLevel.idMatrix)
            (MatrixMultiplicationLevel.accBefore q i)) ∧
    (MatrixMultiplicationLevel.animRun q (50 * q.length)).animating = false ∧
    (MatrixMultiplicationLevel.animRun q (50 * q.length)).current =
      MatrixMultiplicationLevel.composeQueue q ∧
    MatrixMultiplicationLevel.composeQueue q =
      MatrixMultiplicationLevel.productRTL q := by
  refine ⟨fun i j hi _ hj => ?_, fun i hi => ?_, ?_, ?_,
    composeQueue_eq_productRTL q⟩
  · rw [animRun_mid q i j hi hj]
    rfl
  · rw [animRun_start_of_step q (i + 1) hi]
    exact accBefore_succ q i (Nat.lt_of_succ_lt hi)
  · rw [animRun_final q hq]
  · rw [animRun_final q hq]

/-- Witness for C4: the two-step queue rotate-90° then scale-1.5 halts
after 100 ticks with the composed product, and the visual matrix halfway
through the first step is the eased interpolation at progress 25/50. -/
theorem claim_C4_witness :
    ((MatrixMultiplicationLevel.animRun
          [⟨0, -1, 1, 0⟩, ⟨3 / 2, 0, 0, 3 / 2⟩] (50 * 2)).animating = false ∧
      (MatrixMultiplicationLevel.animRun
          [⟨0, -1, 1, 0⟩, ⟨3 / 2, 0, 0, 3 / 2⟩] (50 * 2)).current =
        MatrixMultiplicationLevel.composeQueue
          [⟨0, -1, 1, 0⟩, ⟨3 / 2, 0, 0, 3 / 2⟩]) ∧
    (MatrixMultiplicationLevel.animRun
        [⟨0, -1, 1, 0⟩, ⟨3 / 2, 0, 0, 3 / 2⟩] (50 * 0 + 25)).current =
      MatrixMultiplicationLevel.lerpMatrix
        (MatrixMultiplicationLevel.accBefore
          [⟨0, -1, 1, 0⟩, ⟨3 / 2, 0, 0, 3 / 2⟩] 0)
        (MatrixMultiplicationLevel.multiply
          (([⟨0, -1, 1, 0⟩, ⟨3 / 2, 0, 0, 3 / 2⟩] :
              List MatrixMultiplicationLevel.Matrix2x2).getD 0
            MatrixMultiplicationLevel.idMatrix)
          (MatrixMultiplicationLevel.accBefore
            [⟨0, -1, 1, 0⟩, ⟨3 / 2, 0, 0, 3 / 2⟩] 0))
        (MatrixMultiplicationLevel.smoothstep (((25 : ℕ) : ℚ) / 50)) := by
  have h := claim_C4 [⟨0, -1, 1, 0⟩, ⟨3 / 2, 0, 0, 3 / 2⟩]
    (List.cons_ne_nil _ _)
  exact ⟨⟨h.2.2.1, h.2.2.2.1⟩,
    h.1 0 25 (by norm_num) (by norm_num) (by norm_num)⟩

/-- C6: in 3D mode `project` rotates the world point by yaw about the
vertical axis, then by pitch about the horizontal axis, and returns
`screen.x = width/2 + pan.x + rotated.x·scale`,
`screen.y = height/2 + pan.y − rotated.y·scale` with the rotated `z` as
the depth; in 2D mode the `z` component is forced to `0` and no rotation
is applied, so a vector with `z = 0` projects to the same screen point in
both modes under `pitch = yaw = 0`. -/
theorem claim_C6 (v : VectorPlayground.Vector3)
    (cameraX cameraY scale panX panY width height : ℝ) :
    (VectorPlayground.project true cameraX cameraY scale panX panY
        width height v =
      ⟨width / 2 + panX +
          (VectorPlayground.rotateX (VectorPlayground.rotateY v cameraY)
            cameraX).x * scale,
        height / 2 + panY -
          (VectorPlayground.rotateX (VectorPlayground.rotateY v cameraY)
            cameraX).y * scale,
        (VectorPlayground.rotateX (VectorPlayground.rotateY v cameraY)
          cameraX).z⟩) ∧
    (VectorPlayground.project false cameraX cameraY scale panX panY
        width height v =
      ⟨width / 2 + panX + v.x * scale, height / 2 + panY - v.y * scale, 0⟩) ∧
    (v.z = 0 →
      VectorPlayground.project false 0 0 scale panX panY width height v =
        VectorPlayground.project true 0 0 scale panX panY width height v) := by
  refine ⟨rfl, rfl, fun hz => ?_⟩
  simp [VectorPlayground.project, VectorPlayground.rotateX,
    VectorPlayground.rotateY, hz, VectorPlayground.Screen.mk.injEq]

/-- Witness for C6: the vector `(1, 2, 0)` projects to the same screen
point in 2D mode and in 3D mode with zero pitch and yaw. -/
theorem claim_C6_witness :
    VectorPlayground.project false 0 0 40 0 0 800 600 ⟨1, 2, 0⟩ =
      VectorPlayground.project true 0 0 40 0 0 800 600 ⟨1, 2, 0⟩ :=
  (claim_C6 ⟨1, 2, 0⟩ 0 0 40 0 0 800 600).2.2 rfl

/-- C7: the frame flush sorts the accumulated render commands in
descending order of depth key and executes them in that order, so a
command with a strictly smaller depth key is executed strictly later
(painter's algorithm, furthest first); and an interactive arrow is
submitted with the bias `avgZ − 100`, so its key is strictly below that
of any grid line or cube face whose unbiased depth is within the bias of
the arrow's true depth — the arrow is therefore always drawn on top of
such commands. -/
theorem claim_C7 :
    (∀ l : List MatrixTransformLevel.RenderItem,
        (MatrixTransformLevel.sortRender l).Sorted
            MatrixTransformLevel.renderLE ∧
          (MatrixTransformLevel.sortRender l).Perm l) ∧
    (∀ (l : List MatrixTransformLevel.RenderItem)
        (i j : Fin (MatrixTransformLevel.sortRender l).length),
        ((MatrixTransformLevel.sortRender l).get i).z <
            ((MatrixTransformLevel.sortRender l).get j).z →
          j < i) ∧
    (∀ dArrow dOther : ℚ, |dOther - dArrow| < 100 →
        MatrixTransformLevel.arrowZ dArrow <
            MatrixTransformLevel.lineZ dOther ∧
          MatrixTransformLevel.arrowZ dArrow <
            MatrixTransformLevel.faceZ dOther) := by
  refine ⟨fun l => ⟨List.sorted_insertionSort _ l,
    List.perm_insertionSort _ l⟩, fun l i j hz => ?_, fun dA dO h => ?_⟩
  · rcases lt_trichotomy j i with h | h | h
    · exact h
    · exact absurd hz (by rw [h]; exact lt_irrefl _)
    · have hrel :=
        (List.sorted_insertionSort MatrixTransformLevel.renderLE l).rel_get_of_lt h
      exact absurd hz (not_lt.mpr hrel)
  · have h2 := abs_lt.mp h
    constructor
    · unfold MatrixTransformLevel.arrowZ MatrixTransformLevel.lineZ
      linarith [h2.1]
    · unfold MatrixTransformLevel.arrowZ MatrixTransformLevel.faceZ
      linarith [h2.1]

/-- Witness for C7: an arrow with true depth `5` receives the biased key
`−95` and is ordered after (on top of) a line and a face of unbiased
depth `−90`, which is within the bias of the arrow's depth. -/
theorem claim_C7_witness :
    MatrixTransformLevel.arrowZ 5 < MatrixTransformLevel.lineZ (-90) ∧
      MatrixTransformLevel.arrowZ 5 < MatrixTransformLevel.faceZ (-90) :=
  claim_C7.2.2 5 (-90) (by norm_num)

/-- C8 counterexample: in the frame execution
`renderList.forEach(item => item.draw())` there is no `try`/`catch`, so
when the first queued callback throws, the second queued callback is
never executed — the claim that every remaining callback still runs is
false on this two-command frame. -/
theorem claim_C8_counterexample :
    MatrixTransformLevel.runRenderList [⟨0, true⟩, ⟨1, false⟩] = [0] ∧
      1 ∉ MatrixTransformLevel.runRenderList [⟨0, true⟩, ⟨1, false⟩] := by
  exact ⟨rfl, by decide⟩

/-- C8 (amended): the per-frame execution has no per-command isolation:
when no queued callback throws, every callback is executed in order; but
when a callback throws, the exception propagates out of the `forEach` —
the throwing command is the last one invoked and every callback queued
after it is skipped, aborting the rest of the frame. -/
theorem claim_C8 :
    (∀ l : List MatrixTransformLevel.PaintCmd,
        (∀ p ∈ l, p.throws = false) →
          MatrixTransformLevel.runRenderList l =
            l.map MatrixTransformLevel.PaintCmd.id) ∧
    (∀ (pre post : List MatrixTransformLevel.PaintCmd)
        (c : MatrixTransformLevel.PaintCmd),
        (∀ p ∈ pre, p.throws = false) → c.throws = true →
          MatrixTransformLevel.runRenderList (pre ++ c :: post) =
            pre.map MatrixTransformLevel.PaintCmd.id ++ [c.id]) := by
  constructor
  · intro l
    induction l with
    | nil => intro _; rfl
    | cons p rest ih =>
        intro h
        have hp := h p (List.mem_cons_self _ _)
        simp only [MatrixTransformLevel.runRenderList, hp, Bool.false_eq_true,
          if_false, List.map_cons, List.cons.injEq, true_and]
        exact ih fun q hq => h q (List.mem_cons_of_mem _ hq)
  · intro pre post c
    induction pre with
    | nil =>
        intro _ hc
        simp [MatrixTransformLevel.runRenderList, hc]
    | cons p rest ih =>
        intro hpre hc
        have hp := hpre p (List.mem_cons_self _ _)
        simp only [List.cons_append, MatrixTransformLevel.runRenderList, hp,
          Bool.false_eq_true, if_false, List.map_cons, List.cons.injEq,
          true_and]
        exact ih (fun q hq => hpre q (List.mem_cons_of_mem _ hq)) hc

/-- Witness for C8: in a three-command frame whose middle callback
throws, exactly the first two callbacks are invoked and the third is
skipped. -/
theorem claim_C8_witness :
    MatrixTransformLevel.runRenderList [⟨5, false⟩, ⟨6, true⟩, ⟨7, false⟩] =
      [5, 6] := by
  have h := claim_C8.2 [⟨5, false⟩] [⟨7, false⟩] ⟨6, true⟩ (by decide) rfl
  simpa using h
